import Mathlib

/-!
Shallow embedding of the `waves-optimizer` repository (wave-building engine)
and verification of its specification claims.

Source files embedded:
- `src/waves_op/models/box.py`   (Item, ItemInBox, Box, SkuInfo)
- `src/waves_op/models/wave.py`  (Wave and derived quantities)
- `src/waves_op/metrics.py`      (sku distribution metrics)
- `src/waves_op/optimization/heuristic/greedy.py` (GreedyBuilder)
- `src/waves_op/io.py`, `src/waves_op/models/solver.py` (persistence entry)

Modelling conventions:
- Python machine-free integers are `Nat` (quantities, capacities) or `Int`
  (differences such as `remaining_capacity`, which can be negative in Python).
- Python dictionaries (`defaultdict`) are insertion-ordered association lists.
- Fallible code returns `Except Err`; an unbounded `while` loop is given
  explicit fuel, running out of fuel is the distinguished `Err.outOfFuel`.
- Python float similarity scores are modelled by exact rationals plus an
  explicit `inf` marker (`SimScore`).
-/

namespace WavesOp

/-- `Item` from `models/box.py`: an opaque SKU string. -/
structure Item where
  sku : String
deriving DecidableEq, Repr

/-- `ItemInBox` from `models/box.py`: an item reference plus a quantity. -/
structure ItemInBox where
  item : Item
  quantity : Nat
deriving DecidableEq, Repr

/-- `Box` from `models/box.py`: an id and an ordered content list. -/
structure Box where
  box_id : Int
  content : List ItemInBox
deriving DecidableEq, Repr

/-- `Box.total`: sum of the quantities of the box content. -/
def Box.total (b : Box) : Nat :=
  (b.content.map (fun p => p.quantity)).sum

/-- `Box.skus`: the list of SKUs of the box content (in content order). -/
def Box.skus (b : Box) : List String :=
  b.content.map (fun p => p.item.sku)

/-- `SkuInfo` from `models/box.py`: a SKU and the boxes containing it. -/
structure SkuInfo where
  sku : String
  boxes : List Box
deriving DecidableEq, Repr

/-- `SkuInfo.total`: sum of the totals of the listed boxes. -/
def SkuInfo.total (si : SkuInfo) : Nat :=
  (si.boxes.map Box.total).sum

/-- `SkuInfo.total_sku`: quantity of `si.sku` across the listed boxes. -/
def SkuInfo.total_sku (si : SkuInfo) : Nat :=
  (si.boxes.map (fun b =>
    ((b.content.filter (fun p => p.item.sku = si.sku)).map (fun p => p.quantity)).sum)).sum

/-- `SkuInfo.all_skus`: the distinct SKUs across the listed boxes.
Python returns `list(set(...))` whose order is unspecified; every use of
`all_skus` in the engine is order-insensitive, so first-appearance order
is used here. -/
def SkuInfo.all_skus (si : SkuInfo) : List String :=
  ((si.boxes.map Box.skus).flatten).dedup

/-- `Wave` from `models/wave.py`. -/
structure Wave where
  index : Nat
  active : Bool
  boxes : List Box
  max_capacity : Nat
deriving DecidableEq, Repr

/-- `Wave.total_items`: sum of the totals of the wave's boxes. -/
def Wave.total_items (w : Wave) : Nat :=
  (w.boxes.map Box.total).sum

/-- `Wave.remaining_capacity = max_capacity - total_items` (a Python int,
which can be negative, hence `Int`). -/
def Wave.remaining_capacity (w : Wave) : Int :=
  (w.max_capacity : Int) - (w.total_items : Int)

/-- Insertion-ordered association-list update modelling
`defaultdict[key] += q`. -/
def bumpAssoc : List (String × Nat) → String → Nat → List (String × Nat)
  | [], s, q => [(s, q)]
  | (k, v) :: rest, s, q =>
    if k = s then (k, v + q) :: rest else (k, v) :: bumpAssoc rest s q

/-- Lookup in an association list with default `0`, modelling
`defaultdict(int)` access. -/
def getCount : List (String × Nat) → String → Nat
  | [], _ => 0
  | (k, v) :: rest, s => if k = s then v else getCount rest s

/-- `Wave.sku_count`: SKU to quantity within the wave, as an
insertion-ordered association list (Python `defaultdict(int)`). -/
def Wave.sku_count (w : Wave) : List (String × Nat) :=
  w.boxes.foldl
    (fun acc b => b.content.foldl (fun a p => bumpAssoc a p.item.sku p.quantity) acc)
    []

/-- Result of `Wave.compute_sku_similarity`: a Python float that is either
`float("inf")` or an exact ratio of integers (modelled as a rational). -/
inductive SimScore where
  | inf : SimScore
  | val : ℚ → SimScore
deriving DecidableEq, Repr

/-- `Wave.compute_sku_similarity` from `models/wave.py`:
`inf` when the wave total equals the SKU's in-wave quantity, otherwise
`(boxes_total + sku_count[sku]) / (wave_total - sku_count[sku])`. -/
def Wave.compute_sku_similarity (w : Wave) (sku : String) (boxes : List Box) : SimScore :=
  let sc := w.sku_count
  let wave_total := w.total_items
  if wave_total = getCount sc sku then SimScore.inf
  else
    let boxes_total : Nat :=
      (boxes.map (fun b =>
        ((b.content.filter (fun p => p.item.sku = sku)).map (fun p => p.quantity)).sum)).sum
    SimScore.val (((boxes_total : ℚ) + (getCount sc sku : ℚ)) /
      ((wave_total : ℚ) - (getCount sc sku : ℚ)))

/-- `Wave.get_similarity_vector`: similarity score of each SKU of
`sku_info.all_skus` with respect to the wave. -/
def Wave.get_similarity_vector (w : Wave) (sku_info : SkuInfo) : List SimScore :=
  sku_info.all_skus.map (fun sku => w.compute_sku_similarity sku sku_info.boxes)

instance {ε α : Type _} [DecidableEq ε] [DecidableEq α] : DecidableEq (Except ε α) := fun x y =>
  match x, y with
  | .error e, .error f =>
    if h : e = f then .isTrue (congrArg Except.error h)
    else .isFalse (fun c => h (Except.error.inj c))
  | .ok a, .ok b =>
    if h : a = b then .isTrue (congrArg Except.ok h)
    else .isFalse (fun c => h (Except.ok.inj c))
  | .error _, .ok _ => .isFalse Except.noConfusion
  | .ok _, .error _ => .isFalse Except.noConfusion

/-- Stable ordered insertion: place `a` before the first element `x` with
`le a x`. -/
def orderedInsertB (le : α → α → Bool) (a : α) : List α → List α
  | [] => [a]
  | x :: l => if le a x then a :: x :: l else x :: orderedInsertB le a l

/-- Stable insertion sort, modelling Python's stable `list.sort`: for a
total preorder `le` ("may come before"), the stable sorted permutation is
unique, so this agrees with CPython's Timsort. -/
def stableSort (le : α → α → Bool) (l : List α) : List α :=
  l.foldr (orderedInsertB le) []

theorem mem_orderedInsertB {le : α → α → Bool} {a x : α} {l : List α} :
    x ∈ orderedInsertB le a l ↔ x = a ∨ x ∈ l := by
  induction l with
  | nil => simp [orderedInsertB]
  | cons y ys ih =>
    by_cases h : le a y = true
    · simp [orderedInsertB, h, List.mem_cons]
    · simp only [orderedInsertB, if_neg h, List.mem_cons, ih]
      tauto

theorem mem_stableSort {le : α → α → Bool} {x : α} {l : List α} :
    x ∈ stableSort le l ↔ x ∈ l := by
  induction l with
  | nil => simp [stableSort]
  | cons y ys ih =>
    rw [stableSort, List.foldr_cons, mem_orderedInsertB,
      show ys.foldr (orderedInsertB le) [] = stableSort le ys from rfl, ih]
    simp [List.mem_cons]

/-- `get_sku_distribution_dict` from `metrics.py`: for each SKU, the number
of waves whose `sku_count` contains it (insertion-ordered). -/
def get_sku_distribution_dict (waves : List Wave) : List (String × Nat) :=
  waves.foldl
    (fun acc w => (w.sku_count.map Prod.fst).foldl (fun a s => bumpAssoc a s 1) acc)
    []

/-- `compute_sku_total_distribution` from `metrics.py`: the fragmentation
score, summing `count - 1` over the distribution dictionary. -/
def compute_sku_total_distribution (waves : List Wave) : Nat :=
  ((get_sku_distribution_dict waves).map (fun p => p.2 - 1)).sum

/-! ### GreedyBuilder (`optimization/heuristic/greedy.py`) -/

/-- Error outcomes of the embedded Python code. -/
inductive Err where
  /-- `UnboundLocalError`: `fill_wave_from_sku_info` reads the local `wave`
  on its allocation loop although no branch assigned it. -/
  | unboundLocalWave
  /-- `ValueError("Not all boxes allocated in waves")`. -/
  | notAllBoxesAllocated
  /-- Fuel exhaustion: the Python `while` loop did not terminate within
  the given fuel. -/
  | outOfFuel
  /-- `ValueError("No waves has been build yet")` from `io.save_result`. -/
  | noWavesBuilt
deriving DecidableEq, Repr

/-- `sort_method` configuration values accepted by the engine. -/
inductive SortMethod where
  | cluster
  | similarity
deriving DecidableEq, Repr

/-- `aggregation_method` configuration values (`max`, `mean`, `median`). -/
inductive AggMethod where
  | maxAgg
  | meanAgg
  | medianAgg
deriving DecidableEq, Repr

/-- Strict comparison of similarity scores (`float` `<` with `inf`). -/
def simLt : SimScore → SimScore → Bool
  | .inf, _ => false
  | .val _, .inf => true
  | .val p, .val q => decide (p < q)

/-- `max` of two similarity scores. -/
def simMax (a b : SimScore) : SimScore := if simLt a b then b else a

/-- Addition of similarity scores (`inf` absorbs, as for floats). -/
def simAdd : SimScore → SimScore → SimScore
  | .inf, _ => .inf
  | .val _, .inf => .inf
  | .val p, .val q => .val (p + q)

/-- Sum of a list of similarity scores. -/
def simSum (l : List SimScore) : SimScore := l.foldl simAdd (.val 0)

/-- Division of a similarity score by a natural number. -/
def simDiv (s : SimScore) (n : Nat) : SimScore :=
  match s with
  | .inf => .inf
  | .val q => .val (q / (n : ℚ))

/-- The aggregation functions of `aggregation_functions_map`
(`max`, `np.mean`, `np.median`). On the empty vector Python's `max` raises
and numpy returns `nan`; that case is unreachable from `build_waves`
(every queued `SkuInfo` has a nonempty `all_skus`), and is mapped to `0`. -/
def aggregate (agg : AggMethod) (v : List SimScore) : SimScore :=
  match agg with
  | .maxAgg =>
    match v with
    | [] => .val 0
    | x :: xs => xs.foldl simMax x
  | .meanAgg => simDiv (simSum v) v.length
  | .medianAgg =>
    let s := stableSort (fun a b => !(simLt b a)) v
    match s with
    | [] => .val 0
    | _ :: _ =>
      if s.length % 2 = 1 then s.getD (s.length / 2) (.val 0)
      else simDiv (simAdd (s.getD (s.length / 2 - 1) (.val 0)) (s.getD (s.length / 2) (.val 0))) 2

/-- `GreedyBuilder.apply_cluster_sorting_method`: the priority tuple. -/
def apply_cluster_sorting_method (info : SkuInfo) (previous_sku : String)
    (last_skus : List String) : Bool × Bool × Bool × Nat × Nat × Nat :=
  (decide (info.sku ∈ last_skus), decide (info.sku = previous_sku),
   decide (previous_sku ∈ info.all_skus), info.total, info.total_sku, info.boxes.length)

/-- Python `<` on `bool` (`False < True`). -/
def boolLt (a b : Bool) : Bool := !a && b

/-- Python lexicographic `<` on the cluster priority tuple. -/
def clusterKeyLt :
    Bool × Bool × Bool × Nat × Nat × Nat → Bool × Bool × Bool × Nat × Nat × Nat → Bool
  | (a1, a2, a3, a4, a5, a6), (b1, b2, b3, b4, b5, b6) =>
    boolLt a1 b1 || (a1 = b1 &&
      (boolLt a2 b2 || (a2 = b2 &&
        (boolLt a3 b3 || (a3 = b3 &&
          (decide (a4 < b4) || (a4 = b4 &&
            (decide (a5 < b5) || (a5 = b5 && decide (a6 < b6))))))))))

/-- `GreedyBuilder.apply_similarity_sorting_method`: aggregate the
similarity vector of the entry with respect to the wave. -/
def apply_similarity_sorting_method (agg : AggMethod) (info : SkuInfo) (wave : Wave) :
    SimScore :=
  aggregate agg (wave.get_similarity_vector info)

/-- `skus_info_copy.sort(key=..., reverse=True)`: stable descending sort of
the queue by the configured priority key (`apply_sorting_method`). An
element may precede another iff its key is not smaller. -/
def sort_queue (m : SortMethod) (agg : AggMethod) (queue : List SkuInfo)
    (previous_wave : Wave) (previous_sku : String) (last_skus : List String) :
    List SkuInfo :=
  match m with
  | .cluster =>
    stableSort (fun a b =>
      !(clusterKeyLt (apply_cluster_sorting_method a previous_sku last_skus)
        (apply_cluster_sorting_method b previous_sku last_skus))) queue
  | .similarity =>
    stableSort (fun a b =>
      !(simLt (apply_similarity_sorting_method agg a previous_wave)
        (apply_similarity_sorting_method agg b previous_wave))) queue

/-- The mutable fields of `GreedyBuilder` outside the allocation loop. -/
structure BuilderState where
  boxes : List Box
  max_capacity : Nat
  allocated_boxes : List Box
  allocated_skus : List String
  waves : List Wave
deriving DecidableEq, Repr

/-- `GreedyBuilder.build_sku_info`: raw `defaultdict(list)` accumulation,
keys in first-appearance order, each box listed at most once per SKU. -/
def add_box_to_info : List (String × List Box) → String → Box → List (String × List Box)
  | [], s, b => [(s, [b])]
  | (k, bs) :: rest, s, b =>
    if k = s then (k, if b ∈ bs then bs else bs ++ [b]) :: rest
    else (k, bs) :: add_box_to_info rest s b

/-- The `raw_info` dictionary of `build_sku_info`. -/
def build_raw_info (boxes : List Box) : List (String × List Box) :=
  boxes.foldl
    (fun acc b => b.content.foldl (fun a p => add_box_to_info a p.item.sku b) acc)
    []

/-- `GreedyBuilder.build_sku_info`. -/
def build_sku_info (boxes : List Box) : List SkuInfo :=
  (build_raw_info boxes).map (fun p => { sku := p.1, boxes := p.2 })

/-- `GreedyBuilder.allocate_box_in_wave`: append the box to the wave and to
`allocated_boxes` unless it is already allocated (structural membership). -/
def allocate_box_in_wave (st : BuilderState) (box : Box) (wave : Wave) :
    BuilderState × Wave :=
  if box ∈ st.allocated_boxes then (st, wave)
  else ({ st with allocated_boxes := st.allocated_boxes ++ [box] },
        { wave with boxes := wave.boxes ++ [box] })

/-- Result of `fill_wave_from_sku_info` (updated waves, transition flag,
the mutated `sku_info`, and the updated builder state). -/
structure FillResult where
  previous_wave : Wave
  next_wave : Wave
  use_next_wave : Bool
  sku_info : SkuInfo
  st : BuilderState
deriving DecidableEq, Repr

/-- The `for box in remaining_boxes: self.allocate_box_in_wave(box, wave)`
loop of `fill_wave_from_sku_info`, threading the builder state and the
target wave. -/
def allocate_all (st : BuilderState) (wave : Wave) (bs : List Box) :
    BuilderState × Wave :=
  bs.foldl (fun p b => allocate_box_in_wave p.1 b p.2) (st, wave)

/-- `GreedyBuilder.fill_wave_from_sku_info`. The remaining boxes go into
the current wave if they fit, otherwise into a freshly opened wave if they
fit there; otherwise Python reaches `allocate_box_in_wave(box, wave)` with
the local `wave` never assigned and raises `UnboundLocalError` as soon as
the remaining boxes are nonempty. -/
def fill_wave_from_sku_info (st : BuilderState) (sku_info : SkuInfo)
    (previous_wave : Wave) : Except Err FillResult :=
  let next_wave : Wave :=
    { index := previous_wave.index + 1, active := true, boxes := [],
      max_capacity := st.max_capacity }
  let remaining_boxes := sku_info.boxes.filter (fun b => decide (b ∉ st.allocated_boxes))
  let total_of_boxes : Nat := (remaining_boxes.map Box.total).sum
  if (total_of_boxes : Int) ≤ previous_wave.remaining_capacity then
    let r := allocate_all st previous_wave remaining_boxes
    .ok { previous_wave := r.2, next_wave := next_wave, use_next_wave := false,
          sku_info := { sku_info with boxes := [] }, st := r.1 }
  else if (total_of_boxes : Int) ≤ next_wave.remaining_capacity then
    let r := allocate_all st next_wave remaining_boxes
    .ok { previous_wave := previous_wave, next_wave := r.2, use_next_wave := true,
          sku_info := { sku_info with boxes := [] }, st := r.1 }
  else
    match remaining_boxes with
    | [] =>
      .ok { previous_wave := previous_wave, next_wave := next_wave,
            use_next_wave := false, sku_info := { sku_info with boxes := [] },
            st := st }
    | _ :: _ => .error .unboundLocalWave

/-- Does `box` share a SKU with any box of `bs`
(`any(any(sku in box.skus for sku in b.skus) for b in bs)`)? -/
def sharesSkuWithAny (box : Box) (bs : List Box) : Bool :=
  bs.any (fun b => b.skus.any (fun s => decide (s ∈ box.skus)))

/-- `GreedyBuilder.check_if_box_skus_appears_in_other_waves`. -/
def check_if_box_skus_appears_in_other_waves (max_capacity : Nat) (box : Box)
    (other_waves : List Wave) : Bool :=
  let tiny_wave : Wave :=
    { index := 2 * other_waves.length + 3, active := false, boxes := [box],
      max_capacity := max_capacity }
  other_waves.any (fun other_wave =>
    let sku_count := get_sku_distribution_dict [tiny_wave, other_wave]
    !(sku_count.filter (fun p => decide (1 < p.2))).isEmpty)

/-- The first selection loop of `try_swap_boxes_across_waves`: scan the
destination boxes, skipping boxes linked to the incoming boxes or to other
waves, accumulating swap-out candidates while they fit `new_capacity`, and
stop successfully once `swap_total >= total_to_accept` with a nonempty
selection. Returns (found, boxes_to_swap, swap_total). -/
def select_boxes_to_swap (cap : Nat) (list_of_boxes : List Box)
    (other_waves : List Wave) (new_capacity total_to_accept : Int) :
    List Box → List Box → Int → Bool × List Box × Int
  | [], bts, swap_total => (false, bts, swap_total)
  | box :: rest, bts, swap_total =>
    if sharesSkuWithAny box list_of_boxes then
      select_boxes_to_swap cap list_of_boxes other_waves new_capacity total_to_accept
        rest bts swap_total
    else if check_if_box_skus_appears_in_other_waves cap box other_waves then
      select_boxes_to_swap cap list_of_boxes other_waves new_capacity total_to_accept
        rest bts swap_total
    else
      let step : List Box × Int :=
        if swap_total + (box.total : Int) ≤ new_capacity then
          (bts ++ [box], swap_total + (box.total : Int))
        else (bts, swap_total)
      if total_to_accept ≤ step.2 ∧ step.1 ≠ [] then (true, step.1, step.2)
      else
        select_boxes_to_swap cap list_of_boxes other_waves new_capacity total_to_accept
          rest step.1 step.2

/-- The `while appended` closure loop of `try_swap_boxes_across_waves`:
move every remaining destination box sharing a SKU with an origin box into
`leftovers`, recompute `remaining`, and repeat while something moved. The
fuel bounds the passes (the loop provably stabilises after two passes). -/
def collect_leftovers (dest_boxes origin_boxes bts : List Box) :
    Nat → List Box → List Box → List Box
  | 0, _, leftovers => leftovers
  | fuel + 1, remaining, leftovers =>
    let new_leftovers := remaining.filter (fun box => sharesSkuWithAny box origin_boxes)
    if new_leftovers.isEmpty then leftovers
    else
      let leftovers2 := leftovers ++ new_leftovers
      let remaining2 := dest_boxes.filter (fun b => decide (b ∉ bts ++ leftovers2))
      collect_leftovers dest_boxes origin_boxes bts fuel remaining2 leftovers2

/-- `GreedyBuilder.try_swap_boxes_across_waves`: pure model returning
(swapped, origin_wave, destination_wave); the waves are mutated only on
the final commit, all early `return False` paths leave them unchanged. -/
def try_swap_boxes_across_waves (cap : Nat) (waves : List Wave)
    (list_of_boxes : List Box) (origin_wave destination_wave : Wave) :
    Bool × Wave × Wave :=
  let total_to_move : Int := ((list_of_boxes.map Box.total).sum : Nat)
  let new_capacity : Int := origin_wave.remaining_capacity + total_to_move
  let total_to_accept : Int := max (total_to_move - destination_wave.remaining_capacity) 0
  if new_capacity < total_to_accept then (false, origin_wave, destination_wave)
  else
    let other_waves := waves.filter
      (fun w => decide (¬(w = origin_wave ∨ w = destination_wave)))
    let scan := select_boxes_to_swap cap list_of_boxes other_waves new_capacity
      total_to_accept destination_wave.boxes [] 0
    if !scan.1 then (false, origin_wave, destination_wave)
    else
      let boxes_to_swap := scan.2.1
      let swap_total := scan.2.2
      let remaining := destination_wave.boxes.filter (fun b => decide (b ∉ boxes_to_swap))
      let leftovers := collect_leftovers destination_wave.boxes origin_wave.boxes
        boxes_to_swap (destination_wave.boxes.length + 1) remaining []
      if new_capacity < ((leftovers.map Box.total).sum : Nat) + swap_total then
        (false, origin_wave, destination_wave)
      else if leftovers.any
          (fun box => check_if_box_skus_appears_in_other_waves cap box other_waves) then
        (false, origin_wave, destination_wave)
      else
        let boxes_to_swap2 := boxes_to_swap ++ leftovers
        let remaining2 := destination_wave.boxes.filter
          (fun b => decide (b ∉ boxes_to_swap2))
        if remaining2.any (fun box => sharesSkuWithAny box boxes_to_swap2) then
          (false, origin_wave, destination_wave)
        else
          (true,
           { origin_wave with boxes :=
              origin_wave.boxes.filter (fun b => decide (b ∉ list_of_boxes))
                ++ boxes_to_swap2 },
           { destination_wave with boxes :=
              destination_wave.boxes.filter (fun b => decide (b ∉ boxes_to_swap2))
                ++ list_of_boxes })

/-- One pass of the `for sku, count in sku_distribution.items()` loop of
`cross_swap_boxes`: on the first successful swap, stop with the updated
pair; otherwise continue with the pair unchanged. -/
def cross_swap_pass (cap : Nat) (waves : List Wave) (both_ways : Bool) :
    List (String × Nat) → Wave → Wave → Bool × Wave × Wave
  | [], previous_wave, next_wave => (false, previous_wave, next_wave)
  | (sku, count) :: rest, previous_wave, next_wave =>
    if count ≤ 1 then cross_swap_pass cap waves both_ways rest previous_wave next_wave
    else
      let boxes_in_previous := previous_wave.boxes.filter (fun b => decide (sku ∈ b.skus))
      let boxes_in_next := next_wave.boxes.filter (fun b => decide (sku ∈ b.skus))
      if previous_wave.remaining_capacity < next_wave.remaining_capacity then
        let r := try_swap_boxes_across_waves cap waves boxes_in_previous
          previous_wave next_wave
        if r.1 then (true, r.2.1, r.2.2)
        else if both_ways then
          let r2 := try_swap_boxes_across_waves cap waves boxes_in_next
            next_wave previous_wave
          if r2.1 then (true, r2.2.2, r2.2.1)
          else cross_swap_pass cap waves both_ways rest previous_wave next_wave
        else cross_swap_pass cap waves both_ways rest previous_wave next_wave
      else
        let r := try_swap_boxes_across_waves cap waves boxes_in_next
          next_wave previous_wave
        if r.1 then (true, r.2.2, r.2.1)
        else if both_ways then
          let r2 := try_swap_boxes_across_waves cap waves boxes_in_previous
            previous_wave next_wave
          if r2.1 then (true, r2.2.1, r2.2.2)
          else cross_swap_pass cap waves both_ways rest previous_wave next_wave
        else cross_swap_pass cap waves both_ways rest previous_wave next_wave

/-- The `while not changed` loop of `cross_swap_boxes`, with fuel: exit as
soon as `changed` holds, otherwise run one pass over the distribution. -/
def cross_swap_while (cap : Nat) (waves : List Wave) (both_ways : Bool) :
    Nat → Bool → Wave → Wave → Wave × Wave
  | 0, _, previous_wave, next_wave => (previous_wave, next_wave)
  | fuel + 1, changed, previous_wave, next_wave =>
    if changed then (previous_wave, next_wave)
    else
      let dist := get_sku_distribution_dict [previous_wave, next_wave]
      let r := cross_swap_pass cap waves both_ways dist previous_wave next_wave
      cross_swap_while cap waves both_ways fuel r.1 r.2.1 r.2.2

/-- `GreedyBuilder.cross_swap_boxes`: `changed` is initialised to `True`
and the loop condition is `while not changed`, so the guard fails before
the first iteration; one unit of fuel is therefore sufficient. -/
def cross_swap_boxes (cap : Nat) (waves : List Wave)
    (previous_wave next_wave : Wave) (both_ways : Bool) : Wave × Wave :=
  cross_swap_while cap waves both_ways 1 true previous_wave next_wave

/-- The loop-carried variables of `build_initial_waves`. -/
structure LoopState where
  st : BuilderState
  previous_wave : Wave
  queue : List SkuInfo
  previous_sku : String
deriving DecidableEq, Repr

/-- The tail of one iteration of the `while skus_info_copy` loop of
`build_initial_waves`, after `fill_wave_from_sku_info` succeeded:
`cross_swap_boxes` on the pair, re-queue or retire the entry, and on a
wave transition close the current wave and reseed `previous_sku`. -/
def loop_step (queue_rest : List SkuInfo) (fr : FillResult) : LoopState :=
  let cs := cross_swap_boxes fr.st.max_capacity fr.st.waves
    fr.previous_wave fr.next_wave true
  let previous_sku1 := fr.sku_info.sku
  let qs : List SkuInfo × BuilderState :=
    if fr.sku_info.boxes ≠ [] then (queue_rest ++ [fr.sku_info], fr.st)
    else (queue_rest,
      { fr.st with allocated_skus := fr.st.allocated_skus ++ [fr.sku_info.sku] })
  if fr.use_next_wave then
    let st4 : BuilderState := { qs.2 with waves := qs.2.waves ++ [cs.1] }
    let sku_count_as_list := cs.2.sku_count.filter
      (fun p : String × Nat => decide (p.1 ∉ st4.allocated_skus))
    let previous_sku2 :=
      match stableSort (fun a b => !(decide (a.2 < b.2))) sku_count_as_list with
      | [] => ""
      | (s, _) :: _ => s
    { st := st4, previous_wave := cs.2, queue := qs.1, previous_sku := previous_sku2 }
  else
    { st := qs.2, previous_wave := cs.1, queue := qs.1, previous_sku := previous_sku1 }

/-- The `while skus_info_copy` loop of `build_initial_waves`, with fuel. -/
def build_loop (m : SortMethod) (agg : AggMethod) :
    Nat → LoopState → Except Err BuilderState
  | 0, _ => .error .outOfFuel
  | fuel + 1, ls =>
    match ls.queue with
    | [] => .ok ls.st
    | _ :: _ =>
      match sort_queue m agg ls.queue ls.previous_wave ls.previous_sku
          (ls.previous_wave.sku_count.map Prod.fst) with
      | [] => .ok ls.st
      | sku_info :: queue_rest =>
        match fill_wave_from_sku_info ls.st sku_info ls.previous_wave with
        | .error e => .error e
        | .ok fr => build_loop m agg fuel (loop_step queue_rest fr)

/-- `GreedyBuilder.build_initial_waves`: run the allocation loop from the
initial state, then fail with `ValueError("Not all boxes allocated in
waves")` if some input box was never allocated. -/
def build_initial_waves (boxes : List Box) (cap : Nat) (m : SortMethod)
    (agg : AggMethod) (fuel : Nat) : Except Err BuilderState :=
  let st0 : BuilderState :=
    { boxes := boxes, max_capacity := cap, allocated_boxes := [],
      allocated_skus := [], waves := [] }
  let previous_wave : Wave := { index := 0, active := true, boxes := [], max_capacity := cap }
  match build_loop m agg fuel
      { st := st0, previous_wave := previous_wave, queue := build_sku_info boxes,
        previous_sku := "" } with
  | .error e => .error e
  | .ok stF =>
    if stF.allocated_boxes.length < stF.boxes.length then .error .notAllBoxesAllocated
    else .ok stF

/-- All `(index, other_index)` pairs visited by `refine_waves`. -/
def index_pairs (n : Nat) : List (Nat × Nat) :=
  ((List.range n).map (fun i => (List.range n).map (fun j => (i, j)))).flatten

/-- One `(index, other_index)` visit of `refine_waves`: skip the diagonal,
otherwise run `cross_swap_boxes` on the pair of wave objects and write any
mutation back into the list. -/
def refine_step (cap : Nat) (ws : List Wave) (p : Nat × Nat) : List Wave :=
  if p.1 = p.2 then ws
  else
    match ws[p.1]?, ws[p.2]? with
    | some a, some b =>
      let r := cross_swap_boxes cap ws a b true
      (ws.set p.1 r.1).set p.2 r.2
    | _, _ => ws

/-- `GreedyBuilder.refine_waves`: call `cross_swap_boxes` on every ordered
pair of distinct waves, writing the (possibly mutated) pair back. -/
def refine_waves (cap : Nat) (waves : List Wave) : List Wave :=
  (index_pairs waves.length).foldl (refine_step cap) waves

/-- `GreedyBuilder.build_waves`: initial allocation followed by the
refinement phase over the resulting wave list. -/
def build_waves (boxes : List Box) (cap : Nat) (m : SortMethod) (agg : AggMethod)
    (fuel : Nat) : Except Err (List Wave) :=
  match build_initial_waves boxes cap m agg fuel with
  | .error e => .error e
  | .ok stF => .ok (refine_waves cap stF.waves)

/-! ### Persistence (`io.py`, `models/solver.py`) -/

/-- `io.parse_waves_to_sheet`: the rows written to the output sheet, one
`(box id, wave index)` pair per box of each wave. -/
def parse_waves_to_sheet (waves : List Wave) : List (Int × Nat) :=
  (waves.map (fun w => w.boxes.map (fun b => (b.box_id, w.index)))).flatten

/-- `io.save_result`: raise `ValueError("No waves has been build yet")` if
`waves is None`, otherwise write the parsed rows. The sheet name does not
influence the rows. -/
def save_result (sheet_name : String) (waves : Option (List Wave)) :
    Except Err (List (Int × Nat)) :=
  match sheet_name, waves with
  | _, none => .error .noWavesBuilt
  | _, some ws => .ok (parse_waves_to_sheet ws)

/-- `WavesProblemSolver`: the solver stores the builder's configuration and
the computed waves; `__init__` sets `self.waves = None`. -/
structure WavesProblemSolver where
  builder_boxes : List Box
  builder_max_capacity : Nat
  waves : Option (List Wave)
deriving DecidableEq, Repr

/-- `WavesProblemSolver.__init__`: no build has run, `waves` is `None`. -/
def WavesProblemSolver.init (boxes : List Box) (cap : Nat) : WavesProblemSolver :=
  { builder_boxes := boxes, builder_max_capacity := cap, waves := none }

/-- `WavesProblemSolver.save_result`: delegate to `io.save_result` with the
stored waves. -/
def WavesProblemSolver.save_result (s : WavesProblemSolver) (sheet_name : String) :
    Except Err (List (Int × Nat)) :=
  WavesOp.save_result sheet_name s.waves

/-! ### Helper lemmas -/

/-- `cross_swap_boxes` returns its pair unchanged: the guard `changed` is
initialised `True` and the loop runs `while not changed`. -/
theorem cross_swap_boxes_id (cap : Nat) (waves : List Wave)
    (previous_wave next_wave : Wave) (both_ways : Bool) :
    cross_swap_boxes cap waves previous_wave next_wave both_ways =
      (previous_wave, next_wave) := rfl

theorem list_set_self {α : Type _} (l : List α) (i : Nat) (a : α)
    (h : l[i]? = some a) : l.set i a = l := by
  induction l generalizing i with
  | nil => simp at h
  | cons x xs ih =>
    cases i with
    | zero =>
      simp only [List.getElem?_cons_zero, Option.some.injEq] at h
      simp [List.set, h]
    | succ j =>
      simp only [List.getElem?_cons_succ] at h
      simp [List.set, ih j h]

theorem refine_step_id (cap : Nat) (ws : List Wave) (p : Nat × Nat) :
    refine_step cap ws p = ws := by
  rw [refine_step]
  by_cases h : p.1 = p.2
  · simp [h]
  · simp only [if_neg h]
    cases h1 : ws[p.1]? with
    | none => cases h2 : ws[p.2]? <;> rfl
    | some a =>
      cases h2 : ws[p.2]? with
      | none => rfl
      | some b =>
        show (ws.set p.1 a).set p.2 b = ws
        rw [list_set_self ws p.1 a h1, list_set_self ws p.2 b h2]

/-- `refine_waves` is the identity on every wave list, because each
`cross_swap_boxes` call returns the pair unchanged. -/
theorem refine_waves_id (cap : Nat) (waves : List Wave) :
    refine_waves cap waves = waves := by
  rw [refine_waves]
  generalize index_pairs waves.length = ps
  induction ps generalizing waves with
  | nil => rfl
  | cons p rest ih => rw [List.foldl_cons, refine_step_id]; exact ih waves

theorem wave_total_items_nil_boxes (i : Nat) (a : Bool) (c : Nat) :
    Wave.total_items { index := i, active := a, boxes := [], max_capacity := c } = 0 :=
  rfl

theorem allocate_all_cons (st : BuilderState) (w : Wave) (b : Box) (bs : List Box) :
    allocate_all st w (b :: bs) =
      allocate_all (allocate_box_in_wave st b w).1 (allocate_box_in_wave st b w).2 bs :=
  rfl

theorem wave_total_items_append (w : Wave) (b : Box) :
    ({ w with boxes := w.boxes ++ [b] } : Wave).total_items = w.total_items + b.total := by
  simp [Wave.total_items]

theorem allocate_all_frame (bs : List Box) (st : BuilderState) (w : Wave) :
    (allocate_all st w bs).1.boxes = st.boxes ∧
    (allocate_all st w bs).1.max_capacity = st.max_capacity ∧
    (allocate_all st w bs).1.allocated_skus = st.allocated_skus ∧
    (allocate_all st w bs).1.waves = st.waves ∧
    (allocate_all st w bs).2.max_capacity = w.max_capacity ∧
    (allocate_all st w bs).2.index = w.index := by
  induction bs generalizing st w with
  | nil => exact ⟨rfl, rfl, rfl, rfl, rfl, rfl⟩
  | cons b rest ih =>
    rw [allocate_all_cons, allocate_box_in_wave]
    by_cases h : b ∈ st.allocated_boxes
    · simp only [if_pos h]; exact ih st w
    · simp only [if_neg h]; exact ih _ _

theorem allocate_all_total_le (bs : List Box) (st : BuilderState) (w : Wave) :
    (allocate_all st w bs).2.total_items ≤ w.total_items + (bs.map Box.total).sum := by
  induction bs generalizing st w with
  | nil => exact Nat.le_refl _
  | cons b rest ih =>
    rw [allocate_all_cons, allocate_box_in_wave]
    by_cases h : b ∈ st.allocated_boxes
    · simp only [if_pos h]
      have := ih st w
      simp only [List.map_cons, List.sum_cons]
      omega
    · simp only [if_neg h]
      have := ih { st with allocated_boxes := st.allocated_boxes ++ [b] }
        { w with boxes := w.boxes ++ [b] }
      rw [wave_total_items_append] at this
      simp only [List.map_cons, List.sum_cons]
      omega

theorem allocate_all_nodup (bs : List Box) (st : BuilderState) (w : Wave)
    (h : st.allocated_boxes.Nodup) :
    (allocate_all st w bs).1.allocated_boxes.Nodup := by
  induction bs generalizing st w with
  | nil => exact h
  | cons b rest ih =>
    rw [allocate_all_cons, allocate_box_in_wave]
    by_cases hb : b ∈ st.allocated_boxes
    · simp only [if_pos hb]; exact ih st w h
    · simp only [if_neg hb]
      refine ih _ _ ?_
      exact List.Nodup.append h (List.nodup_singleton b)
        (fun a ha hab => hb ((List.mem_singleton.mp hab) ▸ ha))

theorem allocate_all_mem (bs : List Box) (st : BuilderState) (w : Wave) :
    ∀ b ∈ (allocate_all st w bs).1.allocated_boxes,
      b ∈ st.allocated_boxes ∨ b ∈ bs := by
  induction bs generalizing st w with
  | nil => exact fun b hb => Or.inl hb
  | cons x rest ih =>
    rw [allocate_all_cons, allocate_box_in_wave]
    by_cases hx : x ∈ st.allocated_boxes
    · simp only [if_pos hx]
      intro b hb
      rcases ih st w b hb with h | h
      · exact Or.inl h
      · exact Or.inr (List.mem_cons_of_mem x h)
    · simp only [if_neg hx]
      intro b hb
      rcases ih _ _ b hb with h | h
      · rcases List.mem_append.mp h with h | h
        · exact Or.inl h
        · exact Or.inr (List.mem_cons.mpr (Or.inl (List.mem_singleton.mp h)))
      · exact Or.inr (List.mem_cons_of_mem x h)

/-- Everything the loop proofs need about a successful
`fill_wave_from_sku_info` call: the entry is always retired (its box list
becomes empty), the builder state is changed only in `allocated_boxes`,
allocation preserves freedom from duplicates and draws only from the
entry's boxes, and both returned waves respect the capacity bound. -/
theorem fill_ok_spec (st : BuilderState) (si : SkuInfo) (pw : Wave) (fr : FillResult)
    (h : fill_wave_from_sku_info st si pw = .ok fr) :
    fr.sku_info.boxes = [] ∧
    fr.st.boxes = st.boxes ∧
    fr.st.max_capacity = st.max_capacity ∧
    fr.st.allocated_skus = st.allocated_skus ∧
    fr.st.waves = st.waves ∧
    (st.allocated_boxes.Nodup → fr.st.allocated_boxes.Nodup) ∧
    (∀ b ∈ fr.st.allocated_boxes, b ∈ st.allocated_boxes ∨ b ∈ si.boxes) ∧
    fr.previous_wave.max_capacity = pw.max_capacity ∧
    fr.next_wave.max_capacity = st.max_capacity ∧
    fr.next_wave.total_items ≤ st.max_capacity ∧
    (pw.total_items ≤ pw.max_capacity →
      fr.previous_wave.total_items ≤ pw.max_capacity) := by
  simp only [fill_wave_from_sku_info] at h
  split_ifs at h with h1 h2
  · -- the remaining boxes fit the current wave
    injection h with h'
    subst h'
    obtain ⟨f1, f2, f3, f4, f5, f6⟩ := allocate_all_frame
      (si.boxes.filter (fun b => decide (b ∉ st.allocated_boxes))) st pw
    refine ⟨rfl, f1, f2, f3, f4, ?_, ?_, f5, rfl, Nat.zero_le _, ?_⟩
    · exact fun hn => allocate_all_nodup _ st pw hn
    · intro b hb
      rcases allocate_all_mem _ st pw b hb with hm | hm
      · exact Or.inl hm
      · exact Or.inr (List.mem_of_mem_filter hm)
    · intro _
      have hle := allocate_all_total_le
        (si.boxes.filter (fun b => decide (b ∉ st.allocated_boxes))) st pw
      simp only [Wave.remaining_capacity] at h1
      dsimp only
      omega
  · -- the remaining boxes fit a freshly opened wave
    injection h with h'
    subst h'
    obtain ⟨f1, f2, f3, f4, f5, _⟩ := allocate_all_frame
      (si.boxes.filter (fun b => decide (b ∉ st.allocated_boxes))) st
      { index := pw.index + 1, active := true, boxes := [], max_capacity := st.max_capacity }
    refine ⟨rfl, f1, f2, f3, f4, ?_, ?_, rfl, f5, ?_, fun hpw => hpw⟩
    · exact fun hn => allocate_all_nodup _ st _ hn
    · intro b hb
      rcases allocate_all_mem _ st _ b hb with hm | hm
      · exact Or.inl hm
      · exact Or.inr (List.mem_of_mem_filter hm)
    · have hle := allocate_all_total_le
        (si.boxes.filter (fun b => decide (b ∉ st.allocated_boxes))) st
        { index := pw.index + 1, active := true, boxes := [], max_capacity := st.max_capacity }
      rw [wave_total_items_nil_boxes] at hle
      have h2' : ((si.boxes.filter (fun b => decide (b ∉ st.allocated_boxes))).map
          Box.total).sum ≤ st.max_capacity := by
        simp only [Wave.remaining_capacity, wave_total_items_nil_boxes] at h2
        omega
      show (allocate_all st
        { index := pw.index + 1, active := true, boxes := [],
          max_capacity := st.max_capacity }
        (si.boxes.filter (fun b => decide (b ∉ st.allocated_boxes)))).2.total_items ≤
          st.max_capacity
      omega
  · -- the remaining boxes fit neither wave
    split at h
    · injection h with h'
      subst h'
      exact ⟨rfl, rfl, rfl, rfl, rfl, fun hn => hn, fun b hb => Or.inl hb, rfl, rfl,
        Nat.zero_le _, fun hpw => hpw⟩
    · cases h

/-- Effect of `loop_step` when the processed entry was retired (which is
the case on every successful `fill_wave_from_sku_info`). -/
theorem loop_step_spec (queue_rest : List SkuInfo) (fr : FillResult)
    (hb : fr.sku_info.boxes = []) :
    (loop_step queue_rest fr).queue = queue_rest ∧
    (loop_step queue_rest fr).st.max_capacity = fr.st.max_capacity ∧
    (loop_step queue_rest fr).st.boxes = fr.st.boxes ∧
    (loop_step queue_rest fr).st.allocated_boxes = fr.st.allocated_boxes ∧
    (loop_step queue_rest fr).previous_wave =
      (if fr.use_next_wave then fr.next_wave else fr.previous_wave) ∧
    (loop_step queue_rest fr).st.waves =
      (if fr.use_next_wave then fr.st.waves ++ [fr.previous_wave] else fr.st.waves) := by
  rw [loop_step]
  simp only [cross_swap_boxes_id, hb]
  cases hu : fr.use_next_wave with
  | false => simp
  | true => simp

/-- Membership in the sorted queue is membership in the queue. -/
theorem mem_sort_queue {m : SortMethod} {agg : AggMethod} {queue : List SkuInfo}
    {pw : Wave} {ps : String} {ls : List String} {si : SkuInfo} :
    si ∈ sort_queue m agg queue pw ps ls ↔ si ∈ queue := by
  cases m <;> simp [sort_queue, mem_stableSort]

/-- Capacity invariant of the allocation loop: if the current wave and all
closed waves respect the capacity bound, every wave of the final builder
state does. -/
theorem build_loop_waves_le (m : SortMethod) (agg : AggMethod) (cap : Nat) :
    ∀ (fuel : Nat) (ls : LoopState) (stF : BuilderState),
      ls.st.max_capacity = cap →
      ls.previous_wave.total_items ≤ cap →
      ls.previous_wave.max_capacity = cap →
      (∀ w ∈ ls.st.waves, w.total_items ≤ cap) →
      build_loop m agg fuel ls = .ok stF →
      ∀ w ∈ stF.waves, w.total_items ≤ cap := by
  intro fuel
  induction fuel with
  | zero => intro ls stF _ _ _ _ h; cases h
  | succ fuel ih =>
    intro ls stF hcap hpt hpm hws h
    rw [build_loop] at h
    split at h
    · injection h with h'; subst h'; exact hws
    · split at h
      · injection h with h'; subst h'; exact hws
      · split at h
        · cases h
        · rename_i sk qrest hsort xfill fr hfill
          obtain ⟨hb, _, hfm, _, hfw, _, _, hpm2, hnm, hnt, hpt2⟩ :=
            fill_ok_spec _ _ _ _ hfill
          obtain ⟨q1, q2, q3, q4, q5, q6⟩ := loop_step_spec qrest fr hb
          have hprevle : fr.previous_wave.total_items ≤ cap := by
            rw [← hpm]; exact hpt2 (by rw [hpm]; exact hpt)
          refine ih (loop_step qrest fr) stF ?_ ?_ ?_ ?_ h
          · rw [q2, hfm, hcap]
          · rw [q5]
            cases hu : fr.use_next_wave with
            | true =>
              rw [if_pos rfl, ← hcap]
              exact hnt
            | false =>
              rw [if_neg (by simp)]
              exact hprevle
          · rw [q5]
            cases hu : fr.use_next_wave with
            | true => rw [if_pos rfl, hnm, hcap]
            | false => rw [if_neg (by simp), hpm2, hpm]
          · rw [q6]
            cases hu : fr.use_next_wave with
            | true =>
              rw [if_pos rfl]
              intro w hw
              rcases List.mem_append.mp hw with hw | hw
              · exact hws w (hfw ▸ hw)
              · rw [List.mem_singleton.mp hw]; exact hprevle
            | false =>
              rw [if_neg (by simp)]
              intro w hw
              exact hws w (hfw ▸ hw)

/-- Allocation-bookkeeping invariant of the loop: `allocated_boxes` stays
free of duplicates and drawn from the input boxes, and `st.boxes` is the
input list. -/
theorem build_loop_alloc (m : SortMethod) (agg : AggMethod) (boxes : List Box) :
    ∀ (fuel : Nat) (ls : LoopState) (stF : BuilderState),
      ls.st.boxes = boxes →
      ls.st.allocated_boxes.Nodup →
      (∀ b ∈ ls.st.allocated_boxes, b ∈ boxes) →
      (∀ si ∈ ls.queue, ∀ b ∈ si.boxes, b ∈ boxes) →
      build_loop m agg fuel ls = .ok stF →
      stF.boxes = boxes ∧ stF.allocated_boxes.Nodup ∧
        ∀ b ∈ stF.allocated_boxes, b ∈ boxes := by
  intro fuel
  induction fuel with
  | zero => intro ls stF _ _ _ _ h; cases h
  | succ fuel ih =>
    intro ls stF hbx hnd hal hq h
    rw [build_loop] at h
    split at h
    · injection h with h'; subst h'; exact ⟨hbx, hnd, hal⟩
    · split at h
      · injection h with h'; subst h'; exact ⟨hbx, hnd, hal⟩
      · split at h
        · cases h
        · rename_i sk qrest hsort xfill fr hfill
          obtain ⟨hb, hfb, _, _, _, hfnd, hfal, _, _, _, _⟩ :=
            fill_ok_spec _ _ _ _ hfill
          obtain ⟨q1, q2, q3, q4, q5, q6⟩ := loop_step_spec qrest fr hb
          have hsi : sk ∈ ls.queue := by
            have hmem : sk ∈ sort_queue m agg ls.queue ls.previous_wave
                ls.previous_sku (ls.previous_wave.sku_count.map Prod.fst) := by
              rw [hsort]; exact List.mem_cons_self _ _
            exact mem_sort_queue.mp hmem
          refine ih (loop_step qrest fr) stF ?_ ?_ ?_ ?_ h
          · rw [q3, hfb, hbx]
          · rw [q4]; exact hfnd hnd
          · rw [q4]
            intro b hbmem
            rcases hfal b hbmem with hm | hm
            · exact hal b hm
            · exact hq sk hsi b hm
          · rw [q1]
            intro si hsi' b hbm
            have hmem : si ∈ sort_queue m agg ls.queue ls.previous_wave
                ls.previous_sku (ls.previous_wave.sku_count.map Prod.fst) := by
              rw [hsort]; exact List.mem_cons_of_mem _ hsi'
            exact hq si (mem_sort_queue.mp hmem) b hbm

theorem nodup_subset_length_le {α : Type _} [DecidableEq α] {l m : List α}
    (hn : l.Nodup) (hs : ∀ x ∈ l, x ∈ m) : l.length ≤ m.dedup.length := by
  have h1 : l.toFinset.card = l.length := List.toFinset_card_of_nodup hn
  have h2 : l.toFinset ⊆ m.toFinset := by
    intro x hx
    rw [List.mem_toFinset] at hx ⊢
    exact hs x hx
  have h3 := Finset.card_le_card h2
  rw [h1, List.card_toFinset] at h3
  exact h3

theorem dedup_length_lt_of_not_nodup {α : Type _} [DecidableEq α] {m : List α}
    (h : ¬ m.Nodup) : m.dedup.length < m.length := by
  have hsub := List.dedup_sublist m
  rcases Nat.lt_or_ge m.dedup.length m.length with hlt | hge
  · exact hlt
  · exfalso
    have hlen : m.dedup.length = m.length := le_antisymm hsub.length_le hge
    exact h ((hsub.eq_of_length hlen) ▸ List.nodup_dedup m)

theorem add_box_to_info_mem (l : List (String × List Box)) (s : String) (b0 : Box) :
    ∀ p ∈ add_box_to_info l s b0, ∀ y ∈ p.2, (∃ q ∈ l, y ∈ q.2) ∨ y = b0 := by
  induction l with
  | nil =>
    intro p hp y hy
    simp only [add_box_to_info, List.mem_singleton] at hp
    subst hp
    exact Or.inr (List.mem_singleton.mp hy)
  | cons kv rest ih =>
    obtain ⟨k, bs⟩ := kv
    intro p hp y hy
    rw [add_box_to_info] at hp
    by_cases hk : k = s
    · rw [if_pos hk] at hp
      rcases List.mem_cons.mp hp with hp | hp
      · subst hp
        by_cases hb : b0 ∈ bs
        · rw [if_pos hb] at hy
          exact Or.inl ⟨(k, bs), List.mem_cons_self _ _, hy⟩
        · rw [if_neg hb] at hy
          rcases List.mem_append.mp hy with hy2 | hy2
          · exact Or.inl ⟨(k, bs), List.mem_cons_self _ _, hy2⟩
          · exact Or.inr (List.mem_singleton.mp hy2)
      · exact Or.inl ⟨p, List.mem_cons_of_mem _ hp, hy⟩
    · rw [if_neg hk] at hp
      rcases List.mem_cons.mp hp with hp | hp
      · subst hp
        exact Or.inl ⟨(k, bs), List.mem_cons_self _ _, hy⟩
      · rcases ih p hp y hy with ⟨q, hq, hyq⟩ | hyb
        · exact Or.inl ⟨q, List.mem_cons_of_mem _ hq, hyq⟩
        · exact Or.inr hyb

theorem content_fold_mem (Q : Box → Prop) (b0 : Box) (hb0 : Q b0) :
    ∀ (ps : List ItemInBox) (acc : List (String × List Box)),
      (∀ p ∈ acc, ∀ y ∈ p.2, Q y) →
      ∀ p ∈ ps.foldl (fun a q => add_box_to_info a q.item.sku b0) acc, ∀ y ∈ p.2, Q y := by
  intro ps
  induction ps with
  | nil => intro acc hacc; exact hacc
  | cons q rest ih =>
    intro acc hacc
    rw [List.foldl_cons]
    refine ih (add_box_to_info acc q.item.sku b0) ?_
    intro p hp y hy
    rcases add_box_to_info_mem acc q.item.sku b0 p hp y hy with ⟨r, hr, hyr⟩ | hyb
    · exact hacc r hr y hyr
    · exact hyb ▸ hb0

theorem raw_fold_mem (Q : Box → Prop) :
    ∀ (bs : List Box) (acc : List (String × List Box)),
      (∀ p ∈ acc, ∀ y ∈ p.2, Q y) → (∀ b ∈ bs, Q b) →
      ∀ p ∈ bs.foldl
        (fun acc b => b.content.foldl (fun a q => add_box_to_info a q.item.sku b) acc)
        acc, ∀ y ∈ p.2, Q y := by
  intro bs
  induction bs with
  | nil => intro acc hacc _; exact hacc
  | cons b rest ih =>
    intro acc hacc hbs
    rw [List.foldl_cons]
    refine ih _ ?_ (fun x hx => hbs x (List.mem_cons_of_mem _ hx))
    exact content_fold_mem Q b (hbs b (List.mem_cons_self _ _)) b.content acc hacc

/-- Every box listed by `build_sku_info` is one of the input boxes. -/
theorem build_sku_info_mem (boxes : List Box) :
    ∀ si ∈ build_sku_info boxes, ∀ b ∈ si.boxes, b ∈ boxes := by
  intro si hsi b hb
  rw [build_sku_info, List.mem_map] at hsi
  obtain ⟨p, hp, hps⟩ := hsi
  have hb' : b ∈ p.2 := by rw [← hps] at hb; exact hb
  exact raw_fold_mem (· ∈ boxes) boxes [] (by intro p hp; cases hp) (fun x hx => hx)
    p hp b hb'

/-- What a successful `build_initial_waves` run guarantees: capacity of
every closed wave, duplicate-free allocation drawn from the inputs, and
the final allocation count check. -/
theorem build_initial_ok_spec (boxes : List Box) (cap : Nat) (m : SortMethod)
    (agg : AggMethod) (fuel : Nat) (stF : BuilderState)
    (h : build_initial_waves boxes cap m agg fuel = .ok stF) :
    (∀ w ∈ stF.waves, w.total_items ≤ cap) ∧
    stF.allocated_boxes.Nodup ∧
    (∀ b ∈ stF.allocated_boxes, b ∈ boxes) ∧
    stF.boxes = boxes ∧
    ¬ stF.allocated_boxes.length < stF.boxes.length := by
  rw [build_initial_waves] at h
  split at h
  · cases h
  · rename_i stF0 hloop
    split_ifs at h with hchk
    injection h with h'
    subst h'
    have hcapinv := build_loop_waves_le m agg cap fuel _ stF0 rfl (Nat.zero_le _) rfl
      (by intro w hw; cases hw) hloop
    have halloc := build_loop_alloc m agg boxes fuel _ stF0 rfl List.nodup_nil
      (by intro b hb; cases hb) (fun si hsi => build_sku_info_mem boxes si hsi) hloop
    exact ⟨hcapinv, halloc.2.1, halloc.2.2, halloc.1, hchk⟩

theorem select_boxes_to_swap_mem (cap : Nat) (lob : List Box) (ows : List Wave)
    (nc ta : Int) :
    ∀ (ds bts0 : List Box) (st0 : Int),
      ∀ b ∈ (select_boxes_to_swap cap lob ows nc ta ds bts0 st0).2.1,
        b ∈ ds ∨ b ∈ bts0 := by
  intro ds
  induction ds with
  | nil => intro bts0 st0 b hb; exact Or.inr hb
  | cons x rest ih =>
    intro bts0 st0 b hb
    by_cases h1 : sharesSkuWithAny x lob = true
    · rw [select_boxes_to_swap, if_pos h1] at hb
      rcases ih bts0 st0 b hb with h | h
      · exact Or.inl (List.mem_cons_of_mem _ h)
      · exact Or.inr h
    · by_cases h2 : check_if_box_skus_appears_in_other_waves cap x ows = true
      · rw [select_boxes_to_swap, if_neg h1, if_pos h2] at hb
        rcases ih bts0 st0 b hb with h | h
        · exact Or.inl (List.mem_cons_of_mem _ h)
        · exact Or.inr h
      · simp only [select_boxes_to_swap, if_neg h1, if_neg h2] at hb
        by_cases h3 : st0 + (x.total : Int) ≤ nc
        · rw [if_pos h3] at hb
          by_cases h4 : ta ≤ st0 + (x.total : Int) ∧ bts0 ++ [x] ≠ []
          · rw [if_pos h4] at hb
            dsimp only at hb
            rcases List.mem_append.mp hb with h | h
            · exact Or.inr h
            · exact Or.inl (List.mem_cons.mpr (Or.inl (List.mem_singleton.mp h)))
          · rw [if_neg h4] at hb
            rcases ih (bts0 ++ [x]) (st0 + (x.total : Int)) b hb with h | h
            · exact Or.inl (List.mem_cons_of_mem _ h)
            · rcases List.mem_append.mp h with h5 | h5
              · exact Or.inr h5
              · exact Or.inl (List.mem_cons.mpr (Or.inl (List.mem_singleton.mp h5)))
        · rw [if_neg h3] at hb
          by_cases h4 : ta ≤ st0 ∧ bts0 ≠ []
          · rw [if_pos h4] at hb
            dsimp only at hb
            exact Or.inr hb
          · rw [if_neg h4] at hb
            rcases ih bts0 st0 b hb with h | h
            · exact Or.inl (List.mem_cons_of_mem _ h)
            · exact Or.inr h

theorem collect_leftovers_mem (db ob bts : List Box) :
    ∀ (fuel : Nat) (rem lf : List Box),
      ∀ b ∈ collect_leftovers db ob bts fuel rem lf, b ∈ lf ∨ b ∈ rem ∨ b ∈ db := by
  intro fuel
  induction fuel with
  | zero => intro rem lf b hb; exact Or.inl hb
  | succ fuel ih =>
    intro rem lf b hb
    simp only [collect_leftovers] at hb
    by_cases he : (rem.filter (fun box => sharesSkuWithAny box ob)).isEmpty = true
    · rw [if_pos he] at hb; exact Or.inl hb
    · rw [if_neg he] at hb
      rcases ih _ _ b hb with h | h | h
      · rcases List.mem_append.mp h with h2 | h2
        · exact Or.inl h2
        · exact Or.inr (Or.inl (List.mem_of_mem_filter h2))
      · exact Or.inr (Or.inr (List.mem_of_mem_filter h))
      · exact Or.inr (Or.inr h)

/-- `try_swap_boxes_across_waves` either fails, leaving both waves exactly
as they were, or commits: it replaces the origin boxes by the origin minus
the moved boxes plus a swap-out selection drawn from the destination, and
the destination boxes by the destination minus that selection plus the
moved boxes, in one update. -/
theorem try_swap_cases (cap : Nat) (waves : List Wave) (lob : List Box) (o d : Wave) :
    try_swap_boxes_across_waves cap waves lob o d = (false, o, d) ∨
    ∃ bts : List Box, (∀ b ∈ bts, b ∈ d.boxes) ∧
      try_swap_boxes_across_waves cap waves lob o d =
        (true,
         { o with boxes := o.boxes.filter (fun b => decide (b ∉ lob)) ++ bts },
         { d with boxes := d.boxes.filter (fun b => decide (b ∉ bts)) ++ lob }) := by
  simp only [try_swap_boxes_across_waves]
  split_ifs with h1 h2 h3 h4 h5
  · exact Or.inl rfl
  · exact Or.inl rfl
  · exact Or.inl rfl
  · exact Or.inl rfl
  · exact Or.inl rfl
  · refine Or.inr ⟨_, ?_, rfl⟩
    intro b hb
    rcases List.mem_append.mp hb with h | h
    · rcases select_boxes_to_swap_mem cap lob _ _ _ d.boxes [] 0 b h with h6 | h6
      · exact h6
      · cases h6
    · rcases collect_leftovers_mem d.boxes o.boxes _ _ _ _ b h with h6 | h6 | h6
      · cases h6
      · exact List.mem_of_mem_filter h6
      · exact h6

/-! ### Claim theorems -/

/-- C1. The claim states that whenever `build_waves` returns normally,
every input box lies in exactly one returned wave. The code falsifies
this: `build_initial_waves` appends the current wave to `self.waves` only
on a wave transition, so the final current wave is never part of the
returned list. On the single box `{A: 5}` with capacity `2000`, the run
finishes normally, records the box as allocated (and the SKU as
resolved), yet `build_waves` returns the empty wave list: the box lies in
no returned wave. -/
theorem claim1_last_wave_dropped :
    build_initial_waves
        [{ box_id := 1, content := [{ item := { sku := "A" }, quantity := 5 }] }] 2000
        SortMethod.cluster AggMethod.maxAgg 10 =
      .ok { boxes := [{ box_id := 1, content := [{ item := { sku := "A" }, quantity := 5 }] }],
            max_capacity := 2000,
            allocated_boxes :=
              [{ box_id := 1, content := [{ item := { sku := "A" }, quantity := 5 }] }],
            allocated_skus := ["A"],
            waves := [] } ∧
    build_waves
        [{ box_id := 1, content := [{ item := { sku := "A" }, quantity := 5 }] }] 2000
        SortMethod.cluster AggMethod.maxAgg 10 = .ok [] := by
  constructor <;> decide

/-- C2. The claim states that a single box larger than `max_capacity`
makes `build_waves` raise the input-impossibility error
(`ValueError("Not all boxes allocated in waves")`). The code instead fails
earlier and differently: in `fill_wave_from_sku_info` the boxes fit
neither wave, no branch assigns the local `wave`, and the allocation loop
raises `UnboundLocalError` — not the input-impossibility error. -/
theorem claim2_oversized_box_unbound_local :
    build_waves
        [{ box_id := 1, content := [{ item := { sku := "A" }, quantity := 3000 }] }] 2000
        SortMethod.cluster AggMethod.maxAgg 10 = .error .unboundLocalWave ∧
    build_waves
        [{ box_id := 1, content := [{ item := { sku := "A" }, quantity := 3000 }] }] 2000
        SortMethod.cluster AggMethod.maxAgg 10 ≠ .error .notAllBoxesAllocated := by
  constructor <;> decide

/-- C3. The claim states that when an entry's not-yet-allocated boxes fit
neither the current wave nor a fresh wave, `fill_wave_from_sku_info`
leaves them unallocated, the entry is re-queued, and the step completes
without raising. The code falsifies the last part: on a box of total `3`
against capacity `2` (which fits neither the current nor a fresh wave,
as the stated `remaining_capacity` facts verify), the step raises
`UnboundLocalError` instead of completing. -/
theorem claim3_fill_neither_raises :
    ¬ ((3 : Int) ≤ Wave.remaining_capacity
        { index := 0, active := true, boxes := [], max_capacity := 2 }) ∧
    ¬ ((3 : Int) ≤ Wave.remaining_capacity
        { index := 1, active := true, boxes := [], max_capacity := 2 }) ∧
    fill_wave_from_sku_info
        { boxes := [{ box_id := 1, content := [{ item := { sku := "A" }, quantity := 3 }] }],
          max_capacity := 2, allocated_boxes := [], allocated_skus := [], waves := [] }
        { sku := "A",
          boxes := [{ box_id := 1, content := [{ item := { sku := "A" }, quantity := 3 }] }] }
        { index := 0, active := true, boxes := [], max_capacity := 2 } =
      .error .unboundLocalWave := by
  refine ⟨by decide, by decide, by decide⟩

/-- C4. For every input on which `build_waves` returns normally, every
returned wave satisfies `total_items ≤ max_capacity`; this covers the
whole returned sequence after both the allocation phase and the
(identity) refinement phase. -/
theorem claim4_capacity_invariant (boxes : List Box) (cap : Nat) (m : SortMethod)
    (agg : AggMethod) (fuel : Nat) (ws : List Wave)
    (h : build_waves boxes cap m agg fuel = .ok ws) :
    ∀ w ∈ ws, w.total_items ≤ cap := by
  rw [build_waves] at h
  split at h
  · cases h
  · rename_i stF hinit
    injection h with h'
    rw [refine_waves_id] at h'
    subst h'
    exact (build_initial_ok_spec boxes cap m agg fuel stF hinit).1

/-- Witness for C4 at a concrete two-box input whose build returns one
closed wave. -/
theorem claim4_witness :
    ({ index := 0, active := true,
       boxes := [{ box_id := 1, content := [{ item := { sku := "A" }, quantity := 8 }] }],
       max_capacity := 8 } : Wave).total_items ≤ 8 :=
  claim4_capacity_invariant
    [{ box_id := 1, content := [{ item := { sku := "A" }, quantity := 8 }] },
     { box_id := 2, content := [{ item := { sku := "B" }, quantity := 8 }] }] 8
    SortMethod.cluster AggMethod.maxAgg 10
    [{ index := 0, active := true,
       boxes := [{ box_id := 1, content := [{ item := { sku := "A" }, quantity := 8 }] }],
       max_capacity := 8 }] (by decide) _ (List.mem_singleton.mpr rfl)

/-- C5. `cross_swap_boxes` returns both waves unchanged for every input
(its loop guard `changed` starts `True` while the loop runs
`while not changed`, so the body is unreachable), and consequently
`refine_waves` is the identity on every wave list. -/
theorem claim5_refine_noop :
    (∀ (cap : Nat) (waves : List Wave) (previous_wave next_wave : Wave)
        (both_ways : Bool),
      cross_swap_boxes cap waves previous_wave next_wave both_ways =
        (previous_wave, next_wave)) ∧
    (∀ (cap : Nat) (waves : List Wave), refine_waves cap waves = waves) := by
  exact ⟨fun cap waves p n bw => cross_swap_boxes_id cap waves p n bw,
         fun cap waves => refine_waves_id cap waves⟩

/-- C6. `cross_swap_boxes` (the `refine_pair` operation) never increases
the combined fragmentation score of the pair it is given. -/
theorem claim6_refine_pair_monotone (cap : Nat) (waves : List Wave)
    (previous_wave next_wave : Wave) (both_ways : Bool) :
    compute_sku_total_distribution
        [(cross_swap_boxes cap waves previous_wave next_wave both_ways).1,
         (cross_swap_boxes cap waves previous_wave next_wave both_ways).2] ≤
      compute_sku_total_distribution [previous_wave, next_wave] := by
  rw [cross_swap_boxes_id]

/-- C7. `try_swap_boxes_across_waves` is compute-then-commit atomic: it
either returns `False` with both wave box collections exactly as before,
or returns `True` having exchanged the precomputed sets in one update;
afterwards, provided the moved boxes come from the origin and the two
collections were disjoint, no box of the pair is in both waves or in
neither. -/
theorem claim7_swap_atomicity (cap : Nat) (waves : List Wave) (lob : List Box)
    (o d : Wave) (hlob : ∀ b ∈ lob, b ∈ o.boxes)
    (hdisj : ∀ b ∈ o.boxes, b ∉ d.boxes) :
    ((try_swap_boxes_across_waves cap waves lob o d).1 = false →
      (try_swap_boxes_across_waves cap waves lob o d).2.1 = o ∧
      (try_swap_boxes_across_waves cap waves lob o d).2.2 = d) ∧
    ((try_swap_boxes_across_waves cap waves lob o d).1 = true →
      ∃ bts : List Box, (∀ b ∈ bts, b ∈ d.boxes) ∧
        (try_swap_boxes_across_waves cap waves lob o d).2.1.boxes =
          o.boxes.filter (fun b => decide (b ∉ lob)) ++ bts ∧
        (try_swap_boxes_across_waves cap waves lob o d).2.2.boxes =
          d.boxes.filter (fun b => decide (b ∉ bts)) ++ lob) ∧
    (∀ b, b ∈ o.boxes ∨ b ∈ d.boxes →
      (b ∈ (try_swap_boxes_across_waves cap waves lob o d).2.1.boxes ↔
        b ∉ (try_swap_boxes_across_waves cap waves lob o d).2.2.boxes)) := by
  rcases try_swap_cases cap waves lob o d with hcase | ⟨bts, hbts, hcase⟩
  · rw [hcase]
    refine ⟨fun _ => ⟨rfl, rfl⟩, fun hc => Bool.noConfusion hc, ?_⟩
    intro b hb
    dsimp only
    constructor
    · intro hbo hbd
      exact hdisj b hbo hbd
    · intro hbd
      rcases hb with h | h
      · exact h
      · exact absurd h hbd
  · rw [hcase]
    refine ⟨fun hc => Bool.noConfusion hc, fun _ => ⟨bts, hbts, rfl, rfl⟩, ?_⟩
    intro b hb
    dsimp only
    simp only [List.mem_append, List.mem_filter, decide_eq_true_eq]
    constructor
    · rintro (⟨hbo, hnlob⟩ | hbbts)
      · rintro (⟨hbd, _⟩ | hblob)
        · exact hdisj b hbo hbd
        · exact hnlob hblob
      · rintro (⟨_, hnbts⟩ | hblob)
        · exact hnbts hbbts
        · exact hdisj b (hlob b hblob) (hbts b hbbts)
    · intro hnd
      rcases hb with hbo | hbd
      · by_cases hbl : b ∈ lob
        · exact absurd (Or.inr hbl) hnd
        · exact Or.inl ⟨hbo, hbl⟩
      · by_cases hbb : b ∈ bts
        · exact Or.inr hbb
        · exact absurd (Or.inl ⟨hbd, hbb⟩) hnd

/-- Witness for C7 at a concrete pair of singleton waves. -/
theorem claim7_witness :
    ((try_swap_boxes_across_waves 10 []
        [{ box_id := 1, content := [{ item := { sku := "A" }, quantity := 4 }] }]
        { index := 0, active := true,
          boxes := [{ box_id := 1, content := [{ item := { sku := "A" }, quantity := 4 }] }],
          max_capacity := 10 }
        { index := 1, active := true,
          boxes := [{ box_id := 2, content := [{ item := { sku := "B" }, quantity := 4 }] }],
          max_capacity := 10 }).1 = false →
      (try_swap_boxes_across_waves 10 []
        [{ box_id := 1, content := [{ item := { sku := "A" }, quantity := 4 }] }]
        { index := 0, active := true,
          boxes := [{ box_id := 1, content := [{ item := { sku := "A" }, quantity := 4 }] }],
          max_capacity := 10 }
        { index := 1, active := true,
          boxes := [{ box_id := 2, content := [{ item := { sku := "B" }, quantity := 4 }] }],
          max_capacity := 10 }).2.1 =
        { index := 0, active := true,
          boxes := [{ box_id := 1, content := [{ item := { sku := "A" }, quantity := 4 }] }],
          max_capacity := 10 } ∧
      (try_swap_boxes_across_waves 10 []
        [{ box_id := 1, content := [{ item := { sku := "A" }, quantity := 4 }] }]
        { index := 0, active := true,
          boxes := [{ box_id := 1, content := [{ item := { sku := "A" }, quantity := 4 }] }],
          max_capacity := 10 }
        { index := 1, active := true,
          boxes := [{ box_id := 2, content := [{ item := { sku := "B" }, quantity := 4 }] }],
          max_capacity := 10 }).2.2 =
        { index := 1, active := true,
          boxes := [{ box_id := 2, content := [{ item := { sku := "B" }, quantity := 4 }] }],
          max_capacity := 10 }) ∧
    ((try_swap_boxes_across_waves 10 []
        [{ box_id := 1, content := [{ item := { sku := "A" }, quantity := 4 }] }]
        { index := 0, active := true,
          boxes := [{ box_id := 1, content := [{ item := { sku := "A" }, quantity := 4 }] }],
          max_capacity := 10 }
        { index := 1, active := true,
          boxes := [{ box_id := 2, content := [{ item := { sku := "B" }, quantity := 4 }] }],
          max_capacity := 10 }).1 = true →
      ∃ bts : List Box,
        (∀ b ∈ bts,
          b ∈ ({ index := 1, active := true,
                 boxes := [{ box_id := 2, content := [{ item := { sku := "B" }, quantity := 4 }] }],
                 max_capacity := 10 } : Wave).boxes) ∧
        (try_swap_boxes_across_waves 10 []
          [{ box_id := 1, content := [{ item := { sku := "A" }, quantity := 4 }] }]
          { index := 0, active := true,
            boxes := [{ box_id := 1, content := [{ item := { sku := "A" }, quantity := 4 }] }],
            max_capacity := 10 }
          { index := 1, active := true,
            boxes := [{ box_id := 2, content := [{ item := { sku := "B" }, quantity := 4 }] }],
            max_capacity := 10 }).2.1.boxes =
          ({ index := 0, active := true,
             boxes := [{ box_id := 1, content := [{ item := { sku := "A" }, quantity := 4 }] }],
             max_capacity := 10 } : Wave).boxes.filter
            (fun b => decide
              (b ∉ [({ box_id := 1,
                       content := [{ item := { sku := "A" }, quantity := 4 }] } : Box)])) ++
            bts ∧
        (try_swap_boxes_across_waves 10 []
          [{ box_id := 1, content := [{ item := { sku := "A" }, quantity := 4 }] }]
          { index := 0, active := true,
            boxes := [{ box_id := 1, content := [{ item := { sku := "A" }, quantity := 4 }] }],
            max_capacity := 10 }
          { index := 1, active := true,
            boxes := [{ box_id := 2, content := [{ item := { sku := "B" }, quantity := 4 }] }],
            max_capacity := 10 }).2.2.boxes =
          ({ index := 1, active := true,
             boxes := [{ box_id := 2, content := [{ item := { sku := "B" }, quantity := 4 }] }],
             max_capacity := 10 } : Wave).boxes.filter (fun b => decide (b ∉ bts)) ++
            [{ box_id := 1, content := [{ item := { sku := "A" }, quantity := 4 }] }]) ∧
    (∀ b,
      b ∈ ({ index := 0, active := true,
             boxes := [{ box_id := 1, content := [{ item := { sku := "A" }, quantity := 4 }] }],
             max_capacity := 10 } : Wave).boxes ∨
      b ∈ ({ index := 1, active := true,
             boxes := [{ box_id := 2, content := [{ item := { sku := "B" }, quantity := 4 }] }],
             max_capacity := 10 } : Wave).boxes →
      (b ∈ (try_swap_boxes_across_waves 10 []
          [{ box_id := 1, content := [{ item := { sku := "A" }, quantity := 4 }] }]
          { index := 0, active := true,
            boxes := [{ box_id := 1, content := [{ item := { sku := "A" }, quantity := 4 }] }],
            max_capacity := 10 }
          { index := 1, active := true,
            boxes := [{ box_id := 2, content := [{ item := { sku := "B" }, quantity := 4 }] }],
            max_capacity := 10 }).2.1.boxes ↔
        b ∉ (try_swap_boxes_across_waves 10 []
          [{ box_id := 1, content := [{ item := { sku := "A" }, quantity := 4 }] }]
          { index := 0, active := true,
            boxes := [{ box_id := 1, content := [{ item := { sku := "A" }, quantity := 4 }] }],
            max_capacity := 10 }
          { index := 1, active := true,
            boxes := [{ box_id := 2, content := [{ item := { sku := "B" }, quantity := 4 }] }],
            max_capacity := 10 }).2.2.boxes)) :=
  claim7_swap_atomicity 10 []
    [{ box_id := 1, content := [{ item := { sku := "A" }, quantity := 4 }] }]
    { index := 0, active := true,
      boxes := [{ box_id := 1, content := [{ item := { sku := "A" }, quantity := 4 }] }],
      max_capacity := 10 }
    { index := 1, active := true,
      boxes := [{ box_id := 2, content := [{ item := { sku := "B" }, quantity := 4 }] }],
      max_capacity := 10 }
    (by decide) (by decide)

/-- C8. `Wave.compute_sku_similarity` returns `+infinity` exactly when the
wave's total quantity equals the SKU's in-wave quantity, and otherwise
returns the finite ratio `(Q_out + Q_in) / (Q_wave - Q_in)`. -/
theorem claim8_similarity_inf_iff (w : Wave) (sku : String) (boxes : List Box) :
    (w.compute_sku_similarity sku boxes = SimScore.inf ↔
      w.total_items = getCount w.sku_count sku) ∧
    w.compute_sku_similarity sku boxes =
      (if w.total_items = getCount w.sku_count sku then SimScore.inf
       else SimScore.val
        (((((boxes.map (fun b =>
            ((b.content.filter (fun p => p.item.sku = sku)).map
              (fun p => p.quantity)).sum)).sum : ℕ) : ℚ) +
          (getCount w.sku_count sku : ℚ)) /
          ((w.total_items : ℚ) - (getCount w.sku_count sku : ℚ)))) := by
  simp only [Wave.compute_sku_similarity]
  by_cases h : w.total_items = getCount w.sku_count sku
  · rw [if_pos h]
    exact ⟨⟨fun _ => h, fun _ => rfl⟩, by trivial⟩
  · rw [if_neg h]
    exact ⟨⟨fun hc => SimScore.noConfusion hc, fun ht => absurd ht h⟩, by trivial⟩

/-- C9 counterexample. The claim asserts that any input containing two
structurally equal boxes makes `build_waves` raise the
`'Not all boxes allocated in waves'` error. With a duplicated box plus an
oversized box, the run fails with `UnboundLocalError` inside
`fill_wave_from_sku_info` instead, so the claimed error is not raised. -/
theorem claim9_counterexample :
    ¬ ([{ box_id := 1, content := [{ item := { sku := "A" }, quantity := 5 }] },
        { box_id := 1, content := [{ item := { sku := "A" }, quantity := 5 }] },
        { box_id := 2, content := [{ item := { sku := "B" }, quantity := 3000 }] }] :
        List Box).Nodup ∧
    build_waves
        [{ box_id := 1, content := [{ item := { sku := "A" }, quantity := 5 }] },
         { box_id := 1, content := [{ item := { sku := "A" }, quantity := 5 }] },
         { box_id := 2, content := [{ item := { sku := "B" }, quantity := 3000 }] }] 2000
        SortMethod.cluster AggMethod.maxAgg 10 = .error .unboundLocalWave ∧
    build_waves
        [{ box_id := 1, content := [{ item := { sku := "A" }, quantity := 5 }] },
         { box_id := 1, content := [{ item := { sku := "A" }, quantity := 5 }] },
         { box_id := 2, content := [{ item := { sku := "B" }, quantity := 3000 }] }] 2000
        SortMethod.cluster AggMethod.maxAgg 10 ≠ .error .notAllBoxesAllocated := by
  refine ⟨by decide, by decide, by decide⟩

/-- C9 (amended). If the input contains two structurally equal boxes,
`build_waves` never returns normally: membership in `allocated_boxes` is
structural, so the duplicate can never be allocated and the final count
check (or an earlier failure) aborts every run. -/
theorem claim9_amended (boxes : List Box) (cap : Nat) (m : SortMethod)
    (agg : AggMethod) (fuel : Nat) (hdup : ¬ boxes.Nodup) :
    ∀ ws, build_waves boxes cap m agg fuel ≠ .ok ws := by
  intro ws h
  rw [build_waves] at h
  split at h
  · cases h
  · rename_i stF hinit
    obtain ⟨_, hnd, hsub, hbx, hchk⟩ := build_initial_ok_spec boxes cap m agg fuel stF hinit
    have h1 : stF.allocated_boxes.length ≤ boxes.dedup.length :=
      nodup_subset_length_le hnd hsub
    have h2 : boxes.dedup.length < boxes.length := dedup_length_lt_of_not_nodup hdup
    rw [hbx] at hchk
    omega

/-- Witness for the amended C9 on a two-element duplicate input. -/
theorem claim9_witness :
    ¬ ([{ box_id := 1, content := [{ item := { sku := "A" }, quantity := 5 }] },
        { box_id := 1, content := [{ item := { sku := "A" }, quantity := 5 }] }] :
        List Box).Nodup ∧
    ∀ ws, build_waves
        [{ box_id := 1, content := [{ item := { sku := "A" }, quantity := 5 }] },
         { box_id := 1, content := [{ item := { sku := "A" }, quantity := 5 }] }] 2000
        SortMethod.cluster AggMethod.maxAgg 10 ≠ .ok ws :=
  ⟨by decide,
   claim9_amended
    [{ box_id := 1, content := [{ item := { sku := "A" }, quantity := 5 }] },
     { box_id := 1, content := [{ item := { sku := "A" }, quantity := 5 }] }] 2000
    SortMethod.cluster AggMethod.maxAgg 10 (by decide)⟩

/-- C10. Requesting persistence before a build has completed fails
fatally: for every sheet name, `save_result` on a freshly constructed
solver (whose stored waves value is `None`) returns the
`'No waves has been build yet'` error and produces no output rows. -/
theorem claim10_save_before_build (boxes : List Box) (cap : Nat) (sheet_name : String) :
    (WavesProblemSolver.init boxes cap).save_result sheet_name =
      .error .noWavesBuilt ∧
    ∀ rows, (WavesProblemSolver.init boxes cap).save_result sheet_name ≠ .ok rows := by
  exact ⟨rfl, fun rows h => Except.noConfusion h⟩

end WavesOp
